import Mathlib

/-!
Shallow embedding of the tiled map-loading crate (src/data.rs, src/decoder.rs,
src/deserial.rs) and verification of its specification claims.

Conventions of the embedding:
* Rust u16 values are embedded as Nat; where an arithmetic operation's
  overflow or underflow behaviour matters the operation is made explicit
  (checked subtraction, addition and division return Option, the
  row-major tile-id addition reduces mod 2 ^ 16).
* Rust f32 world coordinates are embedded as rationals: every coordinate
  computed by the source is a quarter-integer far below the 2 ^ 24 exactness
  bound of f32, so f32 arithmetic is exact on them and agrees with Rat.
* The BTreeMap of a tile collection is embedded as a key-sorted association
  list with a sorted insert.
* Rust sort_unstable_by on the firstgid key is embedded as a deterministic
  insertion sort (any sorted permutation models the unstable sort).
-/

namespace Tiled

/-- Global identifier representing the absence of a tile (data.rs EMPTY_TILE). -/
def EMPTY_TILE : Nat := 0

/-- Data of one tile (data.rs struct Tile). -/
structure Tile where
  id : Nat
  image_path : String
deriving DecidableEq, Repr

/-- Tile::new. -/
def Tile.new (id : Nat) (image_path : String) : Tile :=
  { id := id, image_path := image_path }

/-- Default for Tile. -/
def Tile.default : Tile := Tile.new 0 "empty path"

/-- Sorted-association-list embedding of BTreeMap insert: keeps keys strictly
ascending, replacing the value when the key is already present. -/
def btreeInsert (k : Nat) (v : Tile) : List (Nat × Tile) → List (Nat × Tile)
  | [] => [(k, v)]
  | (k', v') :: rest =>
    if k < k' then (k, v) :: (k', v') :: rest
    else if k = k' then (k, v) :: rest
    else (k', v') :: btreeInsert k v rest

/-- Lookup in the association-list embedding of BTreeMap. -/
def btreeLookup (k : Nat) : List (Nat × Tile) → Option Tile
  | [] => none
  | (k', v') :: rest => if k = k' then some v' else btreeLookup k rest

/-- Largest key of the collection (BTreeMap keys().next_back()): for a
key-sorted list this is the last key. -/
def btreeLastKey (c : List (Nat × Tile)) : Option Nat :=
  (c.map Prod.fst).getLast?

/-- Origin of the tiles of a tile set (data.rs enum TilesOrigin). -/
inductive TilesOrigin where
  | Image : String → TilesOrigin
  | Collection : List (Nat × Tile) → TilesOrigin
  | None : TilesOrigin
deriving DecidableEq, Repr

/-- TilesOrigin::new_collection. -/
def TilesOrigin.new_collection (tile : Tile) : TilesOrigin :=
  TilesOrigin.Collection [(tile.id, tile)]

/-- TilesOrigin::new_collection_from. -/
def TilesOrigin.new_collection_from (tiles : List Tile) : TilesOrigin :=
  TilesOrigin.Collection (tiles.foldl (fun c t => btreeInsert t.id t c) [])

/-- TilesOrigin::insert_collection: inserts into an existing collection,
otherwise replaces the origin by a fresh single-entry collection. -/
def TilesOrigin.insert_collection (o : TilesOrigin) (tile : Tile) : TilesOrigin :=
  match o with
  | TilesOrigin.Collection tiles => TilesOrigin.Collection (btreeInsert tile.id tile tiles)
  | _ => TilesOrigin.new_collection tile

/-- Parameters of a tile set (data.rs struct TileSet). Sizes are pairs
(x, y) of pixel counts. -/
structure TileSet where
  firstgid : Nat
  size : Nat × Nat
  count : Nat
  columns : Nat
  name : String
  origin : TilesOrigin
deriving DecidableEq, Repr

/-- Checked division embedding Rust u16 division, whose zero-divisor branch
panics. -/
def checkedDiv (a b : Nat) : Option Nat :=
  if b = 0 then none else some (a / b)

/-- Checked subtraction embedding Rust u16 subtraction, whose underflow
branch panics. -/
def checkedSub (a b : Nat) : Option Nat :=
  if b ≤ a then some (a - b) else none

/-- Checked addition embedding Rust u16 addition, whose overflow branch
panics. -/
def checkedAdd (a b : Nat) : Option Nat :=
  if a + b ≤ 65535 then some (a + b) else none

/-- TileSet::rows, count / columns with the embedded checked division. -/
def TileSet.rows (ts : TileSet) : Option Nat :=
  checkedDiv ts.count ts.columns

/-- TileSet::last_id: the largest local tile id of the set. -/
def TileSet.last_id (ts : TileSet) : Nat :=
  match ts.origin with
  | TilesOrigin.Collection c => (btreeLastKey c).getD 0
  | _ => if ts.count > 1 then ts.count - 1 else 0

/-- TileSet::last_gid, firstgid + last_id. -/
def TileSet.last_gid (ts : TileSet) : Nat :=
  ts.firstgid + ts.last_id

/-- Default for TileSet: the u16::MAX firstgid sentinel. -/
def TileSet.default : TileSet :=
  { firstgid := 65535
    size := (0, 0)
    count := 0
    columns := 0
    name := "unnamed"
    origin := TilesOrigin.None }

/-- Data of one object (data.rs struct Object). -/
structure Object where
  id : Nat
  gid : Nat
  coords : Nat × Nat
  size : Nat × Nat
deriving DecidableEq, Repr

/-- Object::valid_gid: the gid unless it is 0. -/
def Object.valid_gid (o : Object) : Option Nat :=
  if o.gid = 0 then none else some o.gid

/-- Default for Object. -/
def Object.default : Object :=
  { id := 0, gid := 0, coords := (0, 0), size := (0, 0) }

/-- A layer of objects (data.rs struct ObjectGroup). -/
structure ObjectGroup where
  id : Nat
  name : String
  objects : List Object
deriving DecidableEq, Repr

/-- Default for ObjectGroup. -/
def ObjectGroup.default : ObjectGroup :=
  { id := 0, name := "", objects := [] }

/-- Grid orientation (data.rs enum Orientation). -/
inductive Orientation where
  | Orthogonal | Isometric | Staggered | Hexagonal
deriving DecidableEq, Repr

/-- Stagger axis of a map (data.rs enum StaggerAxis). -/
inductive StaggerAxis where
  | XAxis | YAxis | None
deriving DecidableEq, Repr

/-- The tile map (data.rs struct Map). -/
structure Map where
  tilesets : List TileSet
  tileset_indexes : List (Option Nat)
  size : Nat × Nat
  tile_size : Nat × Nat
  tiles : List Nat
  object_groups : List ObjectGroup
  orientation : Orientation
  stagger_axis : StaggerAxis
deriving DecidableEq, Repr

/-- Default for Map. -/
def Map.default : Map :=
  { tilesets := []
    tileset_indexes := []
    size := (0, 0)
    tile_size := (0, 0)
    tiles := []
    object_groups := []
    orientation := Orientation.Orthogonal
    stagger_axis := StaggerAxis.None }

/-- Insert one tile set in front of the first element with a not-smaller
firstgid (auxiliary step of the insertion sort modelling sort_unstable_by). -/
def insertByFirstgid (ts : TileSet) : List TileSet → List TileSet
  | [] => [ts]
  | t :: rest =>
    if ts.firstgid ≤ t.firstgid then ts :: t :: rest
    else t :: insertByFirstgid ts rest

/-- Sort the tile sets ascending by firstgid (models
tilesets.sort_unstable_by on the firstgid comparison). -/
def sortTilesets : List TileSet → List TileSet
  | [] => []
  | t :: rest => insertByFirstgid t (sortTilesets rest)

/-- Index-building loop of Map::reorder_tilesets over the sorted tile-set
list: for the tileset at running position i, first pad the index with the
gap entries, then one entry per local id 0..=last_id, tracking the last
covered gid. The loop's two u16 operations - the subtraction firstgid - 1
of the gap range and the addition firstgid + last_id of the covered-gid
update - are embedded as checked. -/
def buildIndexes : List TileSet → Nat → Nat → Option (List (Option Nat))
  | [], _, _ => some []
  | ts :: rest, i, lastGid =>
    match checkedSub ts.firstgid 1 with
    | none => none
    | some fgm1 =>
      match checkedAdd ts.firstgid ts.last_id with
      | none => none
      | some newLast =>
        match buildIndexes rest (i + 1) newLast with
        | none => none
        | some tail =>
          some (List.replicate (fgm1 - lastGid) none
            ++ List.replicate (ts.last_id + 1) (some i) ++ tail)

/-- Map::reorder_tilesets: sorts the tile sets by firstgid and rebuilds the
gid index, whose slot 0 is always empty. Returns none when the embedded
u16 subtraction firstgid - 1 of the gap loop underflows. -/
def Map.reorder_tilesets (m : Map) : Option Map :=
  let sorted := sortTilesets m.tilesets
  match buildIndexes sorted 0 0 with
  | none => none
  | some idx =>
    some { m with tilesets := sorted, tileset_indexes := none :: idx }

/-- Map::get_tileset: resolves a gid to its tile set through the dense
index. -/
def Map.get_tileset (m : Map) (gid : Nat) : Option TileSet :=
  match m.tileset_indexes[gid]? with
  | some (some i) => m.tilesets[i]?
  | _ => none

/-- Map::tile_column, tile % size.x. -/
def Map.tile_column (m : Map) (tile : Nat) : Nat :=
  tile % m.size.1

/-- Map::tile_row, tile / size.x. -/
def Map.tile_row (m : Map) (tile : Nat) : Nat :=
  tile / m.size.1

/-- Map::tile_id, coords.x + coords.y * size.x in u16 arithmetic (wraps
mod 2 ^ 16). -/
def Map.tile_id (m : Map) (coords : Nat × Nat) : Nat :=
  (coords.1 + coords.2 * m.size.1) % 65536

/-- Map::coords: column and row of a tile index. -/
def Map.coords (m : Map) (tile : Nat) : Nat × Nat :=
  (m.tile_column tile, m.tile_row tile)

/-- Map::coords_stagger_axis: the stagger axis of one tile, according to the
parity of its coordinate on the map's staggered axis. -/
def Map.coords_stagger_axis (m : Map) (c : Nat × Nat) : StaggerAxis :=
  match m.stagger_axis with
  | StaggerAxis.XAxis => if c.1 % 2 = 1 then StaggerAxis.XAxis else StaggerAxis.None
  | StaggerAxis.YAxis => if c.2 % 2 = 1 then StaggerAxis.YAxis else StaggerAxis.None
  | StaggerAxis.None => StaggerAxis.None

/-- Per-axis multiplier of Map::to_world_coords: the tile pixel size, with
the staggered axis scaled by 0.75 on hexagonal maps. -/
def Map.world_multiplier (m : Map) : ℚ × ℚ :=
  let sx : ℚ := m.tile_size.1
  let sy : ℚ := m.tile_size.2
  match m.orientation, m.stagger_axis with
  | Orientation.Hexagonal, StaggerAxis.XAxis => (sx * (3 / 4), sy)
  | Orientation.Hexagonal, StaggerAxis.YAxis => (sx, sy * (3 / 4))
  | _, _ => (sx, sy)

/-- Raw world position of Map::to_world_coords before the stagger offset:
column and negated row scaled by the multiplier. -/
def Map.base_coords (m : Map) (c : Nat × Nat) : ℚ × ℚ :=
  (((c.1 : ℚ)) * (m.world_multiplier).1, -((c.2 : ℚ)) * (m.world_multiplier).2)

/-- Map::to_world_coords: base position plus the per-tile stagger offset. -/
def Map.to_world_coords (m : Map) (c : Nat × Nat) : ℚ × ℚ :=
  let sx : ℚ := m.tile_size.1
  let sy : ℚ := m.tile_size.2
  let base := m.base_coords c
  match m.coords_stagger_axis c with
  | StaggerAxis.YAxis => (base.1 + sx, base.2 - sy / 2)
  | StaggerAxis.XAxis => (base.1 + sx / 2, base.2 - sy)
  | StaggerAxis.None => (base.1 + sx / 2, base.2 - sy / 2)

/-- Map::world_coords: world position of a tile index. -/
def Map.world_coords (m : Map) (tile : Nat) : ℚ × ℚ :=
  m.to_world_coords (m.coords tile)

/-- The stagger offset actually applied by Map::to_world_coords: world
position minus raw base position. -/
def Map.stagger_offset (m : Map) (c : Nat × Nat) : ℚ × ℚ :=
  ((m.to_world_coords c).1 - (m.base_coords c).1,
   (m.to_world_coords c).2 - (m.base_coords c).2)

/-! Decoder scope state machine (decoder.rs). Tag names are embedded as
strings; the byte-slice tag constants of the source become string
constants. -/

/-- Tag name constant of decoder.rs. -/
def MAP_TAG : String := "map"

/-- Tag name constant of decoder.rs. -/
def TILESET_TAG : String := "tileset"

/-- Tag name constant of decoder.rs. -/
def IMAGE_TAG : String := "image"

/-- Tag name constant of decoder.rs. -/
def TILE_TAG : String := "tile"

/-- Tag name constant of decoder.rs. -/
def GRID_TAG : String := "grid"

/-- Tag name constant of decoder.rs. -/
def LAYER_TAG : String := "layer"

/-- Tag name constant of decoder.rs. -/
def DATA_TAG : String := "data"

/-- Tag name constant of decoder.rs. -/
def OBJECT_GROUP_TAG : String := "objectgroup"

/-- Tag name constant of decoder.rs. -/
def OBJECT_TAG : String := "object"

/-- Reading state of a TMX document (decoder.rs enum TMXState). The Unknown
case carries the boxed parent state. -/
inductive TMXState where
  | Map : TMXState
  | TileSet : TileSet → TMXState
  | TileSetImage : TileSet → TMXState
  | Tile : TileSet → Tile → TMXState
  | TileImage : TileSet → Tile → TMXState
  | Grid : TileSet → TMXState
  | Layer : TMXState
  | Data : TMXState
  | ObjectGroup : ObjectGroup → TMXState
  | Object : ObjectGroup → Object → TMXState
  | Unknown : TMXState → TMXState
deriving DecidableEq, Repr

/-- TMXState::into_child: child scope for a tag name, Unknown wrapping the
current state when no child matches. -/
def TMXState.into_child (s : TMXState) (name : String) : TMXState :=
  match s with
  | TMXState.Map =>
    if name = MAP_TAG then TMXState.Map
    else if name = TILESET_TAG then TMXState.TileSet TileSet.default
    else if name = LAYER_TAG then TMXState.Layer
    else if name = OBJECT_GROUP_TAG then TMXState.ObjectGroup ObjectGroup.default
    else TMXState.Unknown TMXState.Map
  | TMXState.TileSet ts =>
    if name = IMAGE_TAG then TMXState.TileSetImage ts
    else if name = TILE_TAG then TMXState.Tile ts Tile.default
    else if name = GRID_TAG then TMXState.Grid ts
    else TMXState.Unknown (TMXState.TileSet ts)
  | TMXState.Tile ts t =>
    if name = IMAGE_TAG then TMXState.TileImage ts t
    else TMXState.Unknown (TMXState.Tile ts t)
  | TMXState.Layer =>
    if name = DATA_TAG then TMXState.Data
    else TMXState.Unknown TMXState.Layer
  | TMXState.ObjectGroup g =>
    if name = OBJECT_TAG then TMXState.Object g Object.default
    else TMXState.Unknown (TMXState.ObjectGroup g)
  | other => TMXState.Unknown other

/-- TMXState::into_parent: parent scope, unwrapping Unknown. -/
def TMXState.into_parent (s : TMXState) : TMXState :=
  match s with
  | TMXState.Map => TMXState.Map
  | TMXState.TileSet _ => TMXState.Map
  | TMXState.Layer => TMXState.Map
  | TMXState.ObjectGroup _ => TMXState.Map
  | TMXState.Tile ts _ => TMXState.TileSet ts
  | TMXState.TileSetImage ts => TMXState.TileSet ts
  | TMXState.Grid ts => TMXState.TileSet ts
  | TMXState.TileImage ts t => TMXState.Tile ts t
  | TMXState.Data => TMXState.Layer
  | TMXState.Object g _ => TMXState.ObjectGroup g
  | TMXState.Unknown st => st

/-! Layer-data decoding: decoder.rs data_text and deserial.rs
decode_csv_data, both embedded on lists of characters. -/

/-- True on the two delimiter characters of the layer-data splitting
closure: comma and newline. -/
def isTileSep (c : Char) : Bool := c = ',' || c = '\n'

/-- str::split on the delimiter predicate: the delimiter-separated pieces,
empty pieces included. -/
def splitSep : List Char → List (List Char)
  | [] => [[]]
  | c :: rest =>
    if isTileSep c then [] :: splitSep rest
    else
      match splitSep rest with
      | [] => [[c]]
      | t :: ts => (c :: t) :: ts

/-- Digit-accumulation loop of u16::from_str: fails on any non-digit. -/
def digitsValAux : List Char → Nat → Option Nat
  | [], acc => some acc
  | c :: rest, acc =>
    if c.isDigit then digitsValAux rest (acc * 10 + (c.toNat - 48)) else none

/-- str::parse::<u16>: optional leading plus sign, then one or more ASCII
digits, value at most 65535; anything else fails. Surrounding whitespace is
not accepted. -/
def parse_u16 (s : List Char) : Option Nat :=
  let digits :=
    match s with
    | '+' :: rest => rest
    | _ => s
  match digits with
  | [] => none
  | _ =>
    match digitsValAux digits 0 with
    | some n => if n ≤ 65535 then some n else none
    | none => none

/-- char::is_whitespace: true exactly on the Unicode White_Space code
points - U+0009 to U+000D, U+0020, U+0085, U+00A0, U+1680, U+2000 to
U+200A, U+2028, U+2029, U+202F, U+205F and U+3000. -/
def rustIsWhitespace (c : Char) : Bool :=
  let n := c.toNat
  (decide (9 ≤ n) && decide (n ≤ 13)) || n == 32 || n == 133 || n == 160
    || n == 5760 || (decide (8192 ≤ n) && decide (n ≤ 8202)) || n == 8232
    || n == 8233 || n == 8239 || n == 8287 || n == 12288

/-- str::trim on the embedded character list: drops Unicode White_Space
characters at both ends. -/
def trimChars (s : List Char) : List Char :=
  ((s.dropWhile rustIsWhitespace).reverse.dropWhile rustIsWhitespace).reverse

/-- decoder.rs data_text: split the layer text on commas and newlines and
keep the tokens that parse as u16, without trimming them. -/
def data_text (s : List Char) : List Nat :=
  (splitSep s).filterMap parse_u16

/-- deserial.rs decode_csv_data: split the layer text on commas and
newlines, trim each token, and keep those that parse as u16. -/
def decode_csv_data (s : List Char) : List Nat :=
  (splitSep s).filterMap (fun t => parse_u16 (trimChars t))

/-! Observers and predicates used by the claim statements. -/

/-- Whether a tiles origin is a collection. -/
def TilesOrigin.isCollection : TilesOrigin → Bool
  | TilesOrigin.Collection _ => true
  | _ => false

/-- Tile lookup through an origin: only collections hold tiles by id. -/
def TilesOrigin.lookup (o : TilesOrigin) (k : Nat) : Option Tile :=
  match o with
  | TilesOrigin.Collection c => btreeLookup k c
  | _ => none

/-- Disjoint ascending gid ranges: each tile set of the list starts strictly
after the running lower bound (initially 0, then the previous last gid) and
its range of u16 gids ends at most at 65535. -/
def chainedRanges : List TileSet → Nat → Bool
  | [], _ => true
  | ts :: rest, lo =>
    decide (lo < ts.firstgid) && decide (ts.firstgid + ts.last_id ≤ 65535)
      && chainedRanges rest (ts.firstgid + ts.last_id)

/-- The list is sorted ascending by firstgid. -/
def sortedByFirstgid : List TileSet → Prop
  | [] => True
  | [_] => True
  | a :: b :: rest => a.firstgid ≤ b.firstgid ∧ sortedByFirstgid (b :: rest)

/-! Concrete values used by witnesses: the three tile sets of the
tilesets_test of data.rs, with counts 2, 4, 4 and gid ranges 1-2, 3-6 and
7-11, and the maps of the coordinate tests, with 16 by 16 tiles. -/

/-- Tile set with no origin, gid range 1-2. -/
def tsNone : TileSet :=
  { TileSet.default with firstgid := 1, count := 2, origin := TilesOrigin.None }

/-- Tile set with an image origin, gid range 3-6. -/
def tsImage : TileSet :=
  { TileSet.default with firstgid := 3, count := 4, origin := TilesOrigin.Image "" }

/-- Tile set with a collection origin whose largest local id is 4, gid
range 7-11. -/
def tsColl : TileSet :=
  { TileSet.default with
    firstgid := 7
    count := 4
    origin := TilesOrigin.new_collection (Tile.new 4 "") }

/-- Map holding the three test tile sets, out of order. -/
def testMapTs : Map :=
  { Map.default with tilesets := [tsColl, tsNone, tsImage] }

/-- The normalized form of testMapTs: tile sets sorted by firstgid and the
dense gid index they produce. -/
def testNormalizedMap : Map :=
  { Map.default with
    tilesets := [tsNone, tsImage, tsColl]
    tileset_indexes :=
      [none, some 0, some 0, some 1, some 1, some 1, some 1,
       some 2, some 2, some 2, some 2, some 2] }

/-- Map with a tile set whose firstgid is 0, on which the gap loop's u16
subtraction underflows. -/
def badFirstgidMap : Map :=
  { Map.default with tilesets := [{ TileSet.default with firstgid := 0 }] }

/-- Map with a tile set keeping the default firstgid sentinel 65535 and
holding 2 tiles, on which the loop's u16 addition firstgid + last_id
overflows although firstgid is at least 1. -/
def overflowMap : Map :=
  { Map.default with tilesets := [{ TileSet.default with count := 2 }] }

/-- Orthogonal map with 16 by 16 tiles (orthogonal_to_world_coords_test). -/
def orthoMap16 : Map :=
  { Map.default with tile_size := (16, 16) }

/-- Hexagonal map staggered on x with 16 by 16 tiles
(hexagonal_to_world_coords_test). -/
def hexXMap16 : Map :=
  { Map.default with
    tile_size := (16, 16)
    orientation := Orientation.Hexagonal
    stagger_axis := StaggerAxis.XAxis }

/-- Hexagonal map staggered on y with 16 by 16 tiles
(hexagonal_to_world_coords_test). -/
def hexYMap16 : Map :=
  { Map.default with
    tile_size := (16, 16)
    orientation := Orientation.Hexagonal
    stagger_axis := StaggerAxis.YAxis }

/-- Map with a 16 by 16 tile grid (tile_id_test and coords_test). -/
def gridMap16 : Map :=
  { Map.default with size := (16, 16) }

/-- Tile set with 6 tiles in 2 columns. -/
def tsCols : TileSet :=
  { TileSet.default with count := 6, columns := 2 }

/-! Helper lemmas. -/

/-- Looking up the freshly inserted key finds the inserted tile. -/
theorem btreeLookup_insert_self (k : Nat) (v : Tile) (c : List (Nat × Tile)) :
    btreeLookup k (btreeInsert k v c) = some v := by
  induction c with
  | nil => simp [btreeInsert, btreeLookup]
  | cons hd tl ih =>
    obtain ⟨k', v'⟩ := hd
    simp only [btreeInsert]
    split_ifs with h1 h2
    · simp [btreeLookup]
    · simp [btreeLookup, h2]
    · simp [btreeLookup, h2, ih]

/-- Looking up any other key is unchanged by an insert. -/
theorem btreeLookup_insert_ne (k q : Nat) (v : Tile) (c : List (Nat × Tile))
    (h : q ≠ k) : btreeLookup q (btreeInsert k v c) = btreeLookup q c := by
  induction c with
  | nil => simp [btreeInsert, btreeLookup, h]
  | cons hd tl ih =>
    obtain ⟨k', v'⟩ := hd
    simp only [btreeInsert]
    split_ifs with h1 h2
    · simp [btreeLookup, h]
    · subst h2
      simp [btreeLookup, h]
    · simp [btreeLookup, ih]

/-- A list element found by getElem? is a member. -/
theorem getElemSome_mem :
    ∀ (l : List TileSet) (n : Nat) (ts : TileSet), l[n]? = some ts → ts ∈ l := by
  intro l
  induction l with
  | nil => intro n ts h; simp at h
  | cons hd tl ih =>
    intro n ts h
    cases n with
    | zero =>
      simp only [List.getElem?_cons_zero, Option.some.injEq] at h
      exact h ▸ List.mem_cons_self hd tl
    | succ k =>
      exact List.mem_cons_of_mem hd (ih k ts (by simpa using h))

/-- Every member of a list is found at some position by getElem?. -/
theorem mem_exists_getElemSome :
    ∀ (l : List TileSet) (ts : TileSet), ts ∈ l → ∃ n : Nat, l[n]? = some ts := by
  intro l
  induction l with
  | nil => intro ts h; cases h
  | cons hd tl ih =>
    intro ts h
    rcases List.mem_cons.mp h with h1 | h2
    · exact ⟨0, by simp [h1]⟩
    · obtain ⟨n, hn⟩ := ih ts h2
      exact ⟨n + 1, by simpa using hn⟩

/-- Unfolding of chainedRanges on a cons cell. -/
theorem chainedRanges_cons (ts : TileSet) (rest : List TileSet) (lo : Nat) :
    chainedRanges (ts :: rest) lo = true ↔
      lo < ts.firstgid ∧ ts.firstgid + ts.last_id ≤ 65535
        ∧ chainedRanges rest (ts.firstgid + ts.last_id) = true := by
  simp [chainedRanges, Bool.and_eq_true, and_assoc]

/-- Every member of a chained list starts strictly above the lower bound. -/
theorem chainedRanges_mem_lower :
    ∀ (l : List TileSet) (lo : Nat) (ts : TileSet),
      chainedRanges l lo = true → ts ∈ l → lo < ts.firstgid := by
  intro l
  induction l with
  | nil => intro lo ts _ h; cases h
  | cons hd tl ih =>
    intro lo ts hc hm
    rw [chainedRanges_cons] at hc
    rcases List.mem_cons.mp hm with h1 | h2
    · subst h1; exact hc.1
    · have := ih (hd.firstgid + hd.last_id) ts hc.2.2 h2
      omega

/-- Position lookup in the gap-entries-tail shape produced by one step of
the index building loop. -/
theorem replicate2_lookup (a b : Nat) (x y : Option Nat)
    (tail : List (Option Nat)) (k : Nat) :
    (List.replicate a x ++ List.replicate b y ++ tail)[k]? =
      if k < a then some x
      else if k < a + b then some y
      else tail[k - (a + b)]? := by
  rw [List.getElem?_append, List.getElem?_append]
  simp only [List.length_append, List.length_replicate, List.getElem?_replicate]
  split_ifs <;> first | rfl | omega

/-- Index entries inside a tile set's gid range point at that tile set's
running position. -/
theorem buildIndexes_lookup_some :
    ∀ (l : List TileSet) (i lo : Nat) (idx : List (Option Nat)),
      chainedRanges l lo = true →
      buildIndexes l i lo = some idx →
      ∀ (j : Nat) (ts : TileSet), l[j]? = some ts →
      ∀ g, ts.firstgid ≤ g → g ≤ ts.firstgid + ts.last_id →
      idx[g - (lo + 1)]? = some (some (i + j)) := by
  intro l
  induction l with
  | nil => intro i lo idx _ _ j ts hj; simp at hj
  | cons hd tl ih =>
    intro i lo idx hc hb j ts hj g hg1 hg2
    rw [chainedRanges_cons] at hc
    obtain ⟨hlo, h65, hctl⟩ := hc
    have h1 : 1 ≤ hd.firstgid := by omega
    cases h2 : buildIndexes tl (i + 1) (hd.firstgid + hd.last_id) with
    | none =>
      rw [buildIndexes] at hb
      simp [checkedSub, checkedAdd, h1, h65, h2] at hb
    | some tail =>
      rw [buildIndexes] at hb
      simp only [checkedSub, checkedAdd, if_pos h1, if_pos h65, h2,
        Option.some.injEq] at hb
      subst hb
      cases j with
      | zero =>
        have hts : hd = ts := by simpa using hj
        subst hts
        rw [replicate2_lookup]
        rw [if_neg (by omega), if_pos (by omega)]
        simp
      | succ k =>
        have htl : tl[k]? = some ts := by simpa using hj
        have hmem : ts ∈ tl := getElemSome_mem tl k ts htl
        have hfg : hd.firstgid + hd.last_id < ts.firstgid :=
          chainedRanges_mem_lower tl (hd.firstgid + hd.last_id) ts hctl hmem
        rw [replicate2_lookup]
        rw [if_neg (by omega), if_neg (by omega)]
        have hrec := ih (i + 1) (hd.firstgid + hd.last_id) tail hctl h2 k ts htl g hg1 hg2
        have harith : g - (lo + 1) - (hd.firstgid - 1 - lo + (hd.last_id + 1))
            = g - (hd.firstgid + hd.last_id + 1) := by omega
        rw [harith, hrec]
        have : i + 1 + k = i + (k + 1) := by omega
        rw [this]

/-- Index entries outside every tile set's gid range never point at a tile
set. -/
theorem buildIndexes_lookup_none :
    ∀ (l : List TileSet) (i lo : Nat) (idx : List (Option Nat)),
      chainedRanges l lo = true →
      buildIndexes l i lo = some idx →
      ∀ g, lo < g →
      (∀ ts ∈ l, g < ts.firstgid ∨ ts.firstgid + ts.last_id < g) →
      ∀ j : Nat, idx[g - (lo + 1)]? ≠ some (some j) := by
  intro l
  induction l with
  | nil =>
    intro i lo idx _ hb g _ _ j
    simp only [buildIndexes, Option.some.injEq] at hb
    subst hb
    simp
  | cons hd tl ih =>
    intro i lo idx hc hb g hg hr j
    rw [chainedRanges_cons] at hc
    obtain ⟨hlo, h65, hctl⟩ := hc
    have h1 : 1 ≤ hd.firstgid := by omega
    cases h2 : buildIndexes tl (i + 1) (hd.firstgid + hd.last_id) with
    | none =>
      rw [buildIndexes] at hb
      simp [checkedSub, checkedAdd, h1, h65, h2] at hb
    | some tail =>
      rw [buildIndexes] at hb
      simp only [checkedSub, checkedAdd, if_pos h1, if_pos h65, h2,
        Option.some.injEq] at hb
      subst hb
      rcases hr hd (List.mem_cons_self hd tl) with hlt | hgt
      · rw [replicate2_lookup, if_pos (by omega)]
        simp
      · rw [replicate2_lookup]
        rw [if_neg (by omega), if_neg (by omega)]
        have harith : g - (lo + 1) - (hd.firstgid - 1 - lo + (hd.last_id + 1))
            = g - (hd.firstgid + hd.last_id + 1) := by omega
        rw [harith]
        exact ih (i + 1) (hd.firstgid + hd.last_id) tail hctl h2 g (by omega)
          (fun ts hts => hr ts (List.mem_cons_of_mem hd hts)) j

/-- Resolution through a freshly built index: gids inside a range resolve
to that range's tile set, gids outside every range resolve to nothing. -/
theorem get_tileset_core (mm : Map) (idx : List (Option Nat))
    (hts : mm.tileset_indexes = none :: idx)
    (hb : buildIndexes mm.tilesets 0 0 = some idx)
    (hch : chainedRanges mm.tilesets 0 = true) :
    (∀ ts ∈ mm.tilesets, ∀ g, ts.firstgid ≤ g → g ≤ ts.last_gid →
        mm.get_tileset g = some ts)
    ∧ ∀ g, (∀ ts ∈ mm.tilesets, g < ts.firstgid ∨ ts.last_gid < g) →
        mm.get_tileset g = none := by
  constructor
  · intro ts htsm g hg1 hg2
    obtain ⟨j, hj⟩ := mem_exists_getElemSome mm.tilesets ts htsm
    have hfg : 0 < ts.firstgid := chainedRanges_mem_lower mm.tilesets 0 ts hch htsm
    have hlook := buildIndexes_lookup_some mm.tilesets 0 0 idx hch hb j ts hj g hg1
      (by simpa [TileSet.last_gid] using hg2)
    obtain ⟨g', rfl⟩ : ∃ g', g = g' + 1 := ⟨g - 1, by omega⟩
    have hlook' : idx[g']? = some (some j) := by simpa using hlook
    simp [Map.get_tileset, hts, List.getElem?_cons_succ, hlook', hj]
  · intro g hr
    cases g with
    | zero => simp [Map.get_tileset, hts]
    | succ g' =>
      have hnone := buildIndexes_lookup_none mm.tilesets 0 0 idx hch hb (g' + 1)
        (by omega) (fun ts hts' => by simpa [TileSet.last_gid] using hr ts hts')
      simp only [Map.get_tileset, hts, List.getElem?_cons_succ]
      cases hv : idx[g']? with
      | none => rfl
      | some v =>
        cases v with
        | none => rfl
        | some j => exact absurd hv (by simpa using hnone j)

/-- Inserting into a firstgid-sorted list keeps it sorted. -/
theorem sortedByFirstgid_insert (ts : TileSet) :
    ∀ (l : List TileSet), sortedByFirstgid l →
      sortedByFirstgid (insertByFirstgid ts l) := by
  intro l
  induction l with
  | nil => intro _; trivial
  | cons hd tl ih =>
    intro h
    rw [insertByFirstgid]
    split_ifs with h1
    · exact ⟨h1, h⟩
    · cases tl with
      | nil => exact ⟨by omega, trivial⟩
      | cons t2 rest =>
        rw [insertByFirstgid]
        obtain ⟨h12, hs⟩ := h
        split_ifs with h2
        · exact ⟨by omega, h2, hs⟩
        · have := ih hs
          rw [insertByFirstgid, if_neg h2] at this
          exact ⟨h12, this⟩

/-- The tail of a sorted list is sorted. -/
theorem sortedByFirstgid_tail (a : TileSet) :
    ∀ (l : List TileSet), sortedByFirstgid (a :: l) → sortedByFirstgid l := by
  intro l h
  cases l with
  | nil => trivial
  | cons b rest => exact h.2

/-- The insertion sort produces a firstgid-sorted list. -/
theorem sortTilesets_sorted :
    ∀ (l : List TileSet), sortedByFirstgid (sortTilesets l) := by
  intro l
  induction l with
  | nil => trivial
  | cons hd tl ih => exact sortedByFirstgid_insert hd (sortTilesets tl) ih

/-- The insertion sort leaves a sorted list unchanged. -/
theorem sortTilesets_of_sorted :
    ∀ (l : List TileSet), sortedByFirstgid l → sortTilesets l = l := by
  intro l
  induction l with
  | nil => intro _; rfl
  | cons hd tl ih =>
    intro h
    rw [sortTilesets, ih (sortedByFirstgid_tail hd tl h)]
    cases tl with
    | nil => rfl
    | cons t2 rest => rw [insertByFirstgid, if_pos h.1]

/-- Membership is preserved by the sorted insert. -/
theorem mem_insertByFirstgid (a ts : TileSet) :
    ∀ (l : List TileSet), (a ∈ insertByFirstgid ts l ↔ a = ts ∨ a ∈ l) := by
  intro l
  induction l with
  | nil => simp [insertByFirstgid]
  | cons hd tl ih =>
    rw [insertByFirstgid]
    split_ifs with h1
    · simp
    · simp only [List.mem_cons, ih]
      tauto

/-- Membership is preserved by the insertion sort. -/
theorem mem_sortTilesets (a : TileSet) :
    ∀ (l : List TileSet), (a ∈ sortTilesets l ↔ a ∈ l) := by
  intro l
  induction l with
  | nil => simp [sortTilesets]
  | cons hd tl ih =>
    rw [sortTilesets, mem_insertByFirstgid]
    simp [ih]

/-- The index building loop succeeds whenever every firstgid is positive
and every u16 gid range fits below 65536. -/
theorem buildIndexes_isSome :
    ∀ (l : List TileSet) (i lo : Nat),
      (∀ ts ∈ l, 1 ≤ ts.firstgid ∧ ts.firstgid + ts.last_id ≤ 65535) →
      (buildIndexes l i lo).isSome = true := by
  intro l
  induction l with
  | nil => intro i lo _; simp [buildIndexes]
  | cons hd tl ih =>
    intro i lo h
    have h1 : 1 ≤ hd.firstgid := (h hd (List.mem_cons_self hd tl)).1
    have h65 : hd.firstgid + hd.last_id ≤ 65535 :=
      (h hd (List.mem_cons_self hd tl)).2
    have htl := ih (i + 1) (hd.firstgid + hd.last_id)
      (fun ts hts => h ts (List.mem_cons_of_mem hd hts))
    cases h2 : buildIndexes tl (i + 1) (hd.firstgid + hd.last_id) with
    | none => rw [h2] at htl; simp at htl
    | some tail => simp [buildIndexes, checkedSub, checkedAdd, h1, h65, h2]

/-- Tokens already equal to their own trim parse identically trimmed or
not. -/
theorem filterMap_parse_trim_congr (l : List (List Char))
    (h : ∀ t ∈ l, trimChars t = t) :
    l.filterMap parse_u16 = l.filterMap (fun t => parse_u16 (trimChars t)) :=
  List.filterMap_congr (fun t ht => by rw [h t ht])

/-! Claim theorems. -/

/-- C2: with 16 by 16 tiles, to_world_coords sends (3,1) to (56,-24) on an
orthogonal map; (2,2) to (32,-40) and (3,2) to (44,-48) on a hexagonal map
staggered on x; and (2,2) to (40,-32) and (2,3) to (48,-44) on a hexagonal
map staggered on y. -/
theorem to_world_coords_examples :
    orthoMap16.to_world_coords (3, 1) = (56, -24)
    ∧ hexXMap16.to_world_coords (2, 2) = (32, -40)
    ∧ hexXMap16.to_world_coords (3, 2) = (44, -48)
    ∧ hexYMap16.to_world_coords (2, 2) = (40, -32)
    ∧ hexYMap16.to_world_coords (2, 3) = (48, -44) := by
  refine ⟨?_, ?_, ?_, ?_, ?_⟩ <;>
    norm_num [Map.to_world_coords, Map.base_coords, Map.world_multiplier,
      Map.coords_stagger_axis, orthoMap16, hexXMap16, hexYMap16, Map.default]

/-- C3 counterexample: on the hexagonal x-staggered 16 by 16 map the tile at
column 3 (odd on the staggered x axis) receives the stagger offset
(8, -16) - half a tile width horizontally and a full tile height
vertically - and not the (16, -8) offset the claim states (full width
horizontally, half height vertically). -/
theorem stagger_offset_claim_false :
    hexXMap16.stagger_offset (3, 2) = (8, -16)
    ∧ hexXMap16.stagger_offset (3, 2) ≠ ((16 : ℚ), -(8 : ℚ)) := by
  constructor <;>
    norm_num [Map.stagger_offset, Map.to_world_coords, Map.base_coords,
      Map.world_multiplier, Map.coords_stagger_axis, hexXMap16, Map.default]

/-- C3 (amended): a tile whose column is odd under stagger axis X receives
half a tile width on world-x and a full tile height downward on world-y; a
tile whose row is odd under stagger axis Y receives the converse (full
width on x, half height downward on y); non-staggered tiles receive the
symmetric half-tile offset on both axes. -/
theorem stagger_offset_spec (m : Map) (c : Nat × Nat) :
    (m.stagger_axis = StaggerAxis.XAxis → c.1 % 2 = 1 →
      m.stagger_offset c = ((m.tile_size.1 : ℚ) / 2, -(m.tile_size.2 : ℚ)))
    ∧ (m.stagger_axis = StaggerAxis.YAxis → c.2 % 2 = 1 →
      m.stagger_offset c = ((m.tile_size.1 : ℚ), -((m.tile_size.2 : ℚ) / 2)))
    ∧ (m.coords_stagger_axis c = StaggerAxis.None →
      m.stagger_offset c = ((m.tile_size.1 : ℚ) / 2, -((m.tile_size.2 : ℚ) / 2))) := by
  refine ⟨fun h1 h2 => ?_, fun h1 h2 => ?_, fun hax => ?_⟩
  · have hax : m.coords_stagger_axis c = StaggerAxis.XAxis := by
      simp [Map.coords_stagger_axis, h1, h2]
    simp only [Map.stagger_offset, Map.to_world_coords, hax, Prod.mk.injEq]
    constructor <;> ring
  · have hax : m.coords_stagger_axis c = StaggerAxis.YAxis := by
      simp [Map.coords_stagger_axis, h1, h2]
    simp only [Map.stagger_offset, Map.to_world_coords, hax, Prod.mk.injEq]
    constructor <;> ring
  · simp only [Map.stagger_offset, Map.to_world_coords, hax, Prod.mk.injEq]
    constructor <;> ring

/-- C3 witness: the amended offsets at the concrete odd-column tile of the
hexagonal x-staggered test map. -/
theorem stagger_offset_spec_witness :
    hexXMap16.stagger_offset (3, 2)
      = ((hexXMap16.tile_size.1 : ℚ) / 2, -(hexXMap16.tile_size.2 : ℚ)) :=
  (stagger_offset_spec hexXMap16 (3, 2)).1 (by rfl) (by rfl)

/-- C4 counterexample: on the text 0-comma-space-1 the nested-tag path
(data_text) drops the whitespace-padded token and yields only 0, while the
structured path (decode_csv_data) trims and yields 0 then 1, so the two
decoding paths disagree. -/
theorem data_paths_counterexample :
    data_text ("0, 1".toList) = [0]
    ∧ decode_csv_data ("0, 1".toList) = [0, 1]
    ∧ data_text ("0, 1".toList) ≠ decode_csv_data ("0, 1".toList) := by
  refine ⟨?_, ?_, ?_⟩ <;> decide

/-- C4 (amended): the two layer-data decoding paths agree on every text
whose tokens carry no surrounding whitespace (each delimiter-separated
token equals its own trim); only decode_csv_data tolerates whitespace
around tokens, data_text drops whitespace-padded tokens. -/
theorem data_text_eq_decode_csv (s : List Char)
    (h : ∀ t ∈ splitSep s, trimChars t = t) :
    data_text s = decode_csv_data s := by
  unfold data_text decode_csv_data
  exact filterMap_parse_trim_congr _ h

/-- C4 witness: both paths agree on a concrete whitespace-free text. -/
theorem data_text_eq_decode_csv_witness :
    data_text ("0,1\n2".toList) = decode_csv_data ("0,1\n2".toList) :=
  data_text_eq_decode_csv _ (by decide)

/-- C5: on a map with positive width, row times width plus column
reconstructs every u16 tile index, and tile_id inverts coords. -/
theorem tile_coords_roundtrip (m : Map) (_hw : 0 < m.size.1)
    (i : Nat) (hi : i < 65536) :
    m.tile_row i * m.size.1 + m.tile_column i = i
    ∧ m.tile_id (m.coords i) = i := by
  have h : i % m.size.1 + i / m.size.1 * m.size.1 = i := by
    rw [Nat.add_comm, Nat.mul_comm (i / m.size.1) m.size.1]
    exact Nat.div_add_mod i m.size.1
  constructor
  · simp only [Map.tile_row, Map.tile_column]
    rw [Nat.add_comm]
    exact h
  · simp only [Map.tile_id, Map.coords, Map.tile_column, Map.tile_row]
    rw [h]
    exact Nat.mod_eq_of_lt hi

/-- C5 witness: the roundtrip at tile index 19 of the 16-wide test grid. -/
theorem tile_coords_roundtrip_witness :
    gridMap16.tile_row 19 * gridMap16.size.1 + gridMap16.tile_column 19 = 19
    ∧ gridMap16.tile_id (gridMap16.coords 19) = 19 :=
  tile_coords_roundtrip gridMap16 (by decide) 19 (by decide)

/-- C7: entering any child scope from any decoder state - including the
Unknown scope wrapping the prior state for unrecognized tag names - and
leaving it restores exactly the state active before the enter. -/
theorem into_parent_into_child (s : TMXState) (name : String) :
    (s.into_child name).into_parent = s := by
  cases s <;> simp only [TMXState.into_child] <;>
    first
      | rfl
      | (split_ifs <;> rfl)

/-- C8: inserting a tile into a tiles origin always yields a collection;
the inserted tile is found at its id, every other id resolves as in the
previous origin - so a previous collection is extended (with replacement
at an equal id) and a non-collection origin is replaced by the fresh
single-entry collection holding exactly the inserted tile. -/
theorem insert_collection_spec (o : TilesOrigin) (t : Tile) :
    (o.insert_collection t).isCollection = true
    ∧ (o.insert_collection t).lookup t.id = some t
    ∧ ∀ k, k ≠ t.id → (o.insert_collection t).lookup k = o.lookup k := by
  cases o with
  | Collection c =>
    refine ⟨rfl, ?_, fun k hk => ?_⟩
    · simp [TilesOrigin.insert_collection, TilesOrigin.lookup,
        btreeLookup_insert_self]
    · simp [TilesOrigin.insert_collection, TilesOrigin.lookup,
        btreeLookup_insert_ne _ _ _ _ hk]
  | Image s =>
    refine ⟨rfl, ?_, fun k hk => ?_⟩
    · simp [TilesOrigin.insert_collection, TilesOrigin.new_collection,
        TilesOrigin.lookup, btreeLookup]
    · simp [TilesOrigin.insert_collection, TilesOrigin.new_collection,
        TilesOrigin.lookup, btreeLookup, hk]
  | None =>
    refine ⟨rfl, ?_, fun k hk => ?_⟩
    · simp [TilesOrigin.insert_collection, TilesOrigin.new_collection,
        TilesOrigin.lookup, btreeLookup]
    · simp [TilesOrigin.insert_collection, TilesOrigin.new_collection,
        TilesOrigin.lookup, btreeLookup, hk]

/-- C8 witness: inserting a tile into an image origin at a concrete tile. -/
theorem insert_collection_spec_witness :
    ((TilesOrigin.Image "img").insert_collection (Tile.new 2 "p")).isCollection = true
    ∧ ((TilesOrigin.Image "img").insert_collection (Tile.new 2 "p")).lookup (Tile.new 2 "p").id
        = some (Tile.new 2 "p")
    ∧ ((TilesOrigin.Image "img").insert_collection (Tile.new 2 "p")).lookup 5
        = (TilesOrigin.Image "img").lookup 5 :=
  ⟨(insert_collection_spec (TilesOrigin.Image "img") (Tile.new 2 "p")).1,
   (insert_collection_spec (TilesOrigin.Image "img") (Tile.new 2 "p")).2.1,
   (insert_collection_spec (TilesOrigin.Image "img") (Tile.new 2 "p")).2.2 5 (by decide)⟩

/-- C9: with positive columns, rows returns count divided by columns and the
zero-divisor branch of the embedded checked division is unreachable; with
columns zero the guard fails and the operation is undefined. -/
theorem rows_spec (ts : TileSet) :
    (0 < ts.columns → ts.rows = some (ts.count / ts.columns))
    ∧ (ts.columns = 0 → ts.rows = none) := by
  constructor
  · intro h
    simp [TileSet.rows, checkedDiv, Nat.pos_iff_ne_zero.mp h]
  · intro h
    simp [TileSet.rows, checkedDiv, h]

/-- C9 witness: rows on a 2-column tile set with 6 tiles, and on the
default tile set whose columns are 0. -/
theorem rows_spec_witness :
    tsCols.rows = some (tsCols.count / tsCols.columns)
    ∧ TileSet.default.rows = none :=
  ⟨(rows_spec tsCols).1 (by decide), (rows_spec TileSet.default).2 rfl⟩

/-- C1: after a successful reorder_tilesets of a map whose tile sets carry
pairwise-disjoint u16 gid ranges assigned by ascending firstgid (the
chainedRanges predicate on the normalized tile-set list), every gid inside
the range firstgid to last_gid of a tile set of the map resolves through
get_tileset to that tile set, and every gid inside no range - gid 0, gids
in gaps, and gids past the last range - resolves to none. -/
theorem get_tileset_spec (m m' : Map)
    (hre : m.reorder_tilesets = some m')
    (hch : chainedRanges m'.tilesets 0 = true) :
    (∀ ts ∈ m'.tilesets, ∀ g, ts.firstgid ≤ g → g ≤ ts.last_gid →
        m'.get_tileset g = some ts)
    ∧ ∀ g, (∀ ts ∈ m'.tilesets, g < ts.firstgid ∨ ts.last_gid < g) →
        m'.get_tileset g = none := by
  simp only [Map.reorder_tilesets] at hre
  cases hb : buildIndexes (sortTilesets m.tilesets) 0 0 with
  | none => rw [hb] at hre; exact absurd hre (by simp)
  | some idx =>
    rw [hb] at hre
    simp only [Option.some.injEq] at hre
    subst hre
    exact get_tileset_core _ idx rfl hb hch

/-- C1 witness: the normalized three-tile-set test map resolves gid 4 to
the middle tile set and gid 12, past every range, to none. -/
theorem get_tileset_spec_witness :
    testNormalizedMap.get_tileset 4 = some tsImage
    ∧ testNormalizedMap.get_tileset 12 = none :=
  ⟨(get_tileset_spec testMapTs testNormalizedMap (by decide) (by decide)).1
      tsImage (by decide) 4 (by decide) (by decide),
   (get_tileset_spec testMapTs testNormalizedMap (by decide) (by decide)).2
      12 (by decide)⟩

/-- C6: reorder_tilesets is idempotent - rerunning it on the map a
successful run produced returns that map unchanged, with the same tile-set
ordering and the same gid index. -/
theorem reorder_tilesets_idempotent (m m₁ : Map)
    (h : m.reorder_tilesets = some m₁) : m₁.reorder_tilesets = some m₁ := by
  simp only [Map.reorder_tilesets] at h ⊢
  cases hb : buildIndexes (sortTilesets m.tilesets) 0 0 with
  | none => rw [hb] at h; exact absurd h (by simp)
  | some idx =>
    rw [hb] at h
    simp only [Option.some.injEq] at h
    subst h
    have hs : sortedByFirstgid (sortTilesets m.tilesets) :=
      sortTilesets_sorted m.tilesets
    rw [show ({ m with
          tilesets := sortTilesets m.tilesets,
          tileset_indexes := none :: idx } : Map).tilesets
        = sortTilesets m.tilesets from rfl]
    rw [sortTilesets_of_sorted _ hs, hb]

/-- C6 witness: renormalizing the already normalized test map returns it
unchanged. -/
theorem reorder_tilesets_idempotent_witness :
    testNormalizedMap.reorder_tilesets = some testNormalizedMap :=
  reorder_tilesets_idempotent testMapTs testNormalizedMap (by decide)

/-- C10 counterexample: firstgid at least 1 does not make reorder_tilesets
total - the map holding the single tile set with the default firstgid
sentinel 65535 and 2 tiles satisfies the claim's precondition (its one
tile set has firstgid 1 or more), yet normalization is undefined because
the loop's u16 addition firstgid + last_id overflows at 65535 + 1. -/
theorem reorder_tilesets_claim_counterexample :
    1 ≤ ({ TileSet.default with count := 2 } : TileSet).firstgid
    ∧ overflowMap.tilesets = [{ TileSet.default with count := 2 }]
    ∧ overflowMap.reorder_tilesets = none := by
  refine ⟨?_, ?_, ?_⟩ <;> decide

/-- C10 (amended): with every firstgid at least 1 the u16 subtraction
firstgid - 1 of the gap-padding loop never underflows, but that alone
does not make reorder_tilesets total - the loop's u16 addition
firstgid + last_id must also not overflow. Under the two conditions
together (firstgid at least 1 and firstgid + last_id at most 65535 for
every tile set) normalization always succeeds, and the positivity
precondition stays necessary: with a firstgid of 0 the subtraction
underflows and normalization is undefined. -/
theorem reorder_tilesets_total :
    (∀ m : Map,
        (∀ ts ∈ m.tilesets, 1 ≤ ts.firstgid ∧ ts.firstgid + ts.last_id ≤ 65535) →
        (m.reorder_tilesets).isSome = true)
    ∧ badFirstgidMap.reorder_tilesets = none := by
  constructor
  · intro m h
    have h' : ∀ ts ∈ sortTilesets m.tilesets,
        1 ≤ ts.firstgid ∧ ts.firstgid + ts.last_id ≤ 65535 :=
      fun ts hts => h ts ((mem_sortTilesets ts m.tilesets).mp hts)
    have hsome := buildIndexes_isSome (sortTilesets m.tilesets) 0 0 h'
    simp only [Map.reorder_tilesets]
    cases hb : buildIndexes (sortTilesets m.tilesets) 0 0 with
    | none => rw [hb] at hsome; exact absurd hsome (by simp)
    | some idx => rfl
  · rfl

/-- C10 witness: the loop succeeds on the test map, all of whose firstgids
are positive and whose gid ranges fit in u16. -/
theorem reorder_tilesets_total_witness :
    (testMapTs.reorder_tilesets).isSome = true :=
  reorder_tilesets_total.1 testMapTs (by decide)

end Tiled
